import Mathlib

/-!
# Verification development for the take-two sports-commentary analyzer

The repository ships the React frontend (under src/frontend and the unnamed
source parts) together with type declarations for the API records; the
analysis backend itself is not part of the source tree.  Frontend
computations are embedded directly from the TSX sources; backend
aggregation and bias scoring are modelled from the spec where the doc
comment says so.  JavaScript numbers are embedded as rationals (ℚ) and
JavaScript strings as Lean strings, or as character lists where the code
computes on their contents.
-/

/-- Categorical sentiment labels (positive / negative / neutral), as the
`sentiment_label` union type in src/unnamed/part_006 declares them. -/
inductive SentimentLabel
  | positive
  | negative
  | neutral
deriving DecidableEq, Repr

/-- The spec's label derivation (§4.3), stated from the spec's words:
`score > 0.1 → positive`, `score < -0.1 → negative`, else `neutral`.
The reference function every code-side derivation is compared with. -/
def specLabel (score : ℚ) : SentimentLabel :=
  if score > 1/10 then SentimentLabel.positive
  else if score < -(1/10) then SentimentLabel.negative
  else SentimentLabel.neutral

/-- SentimentBar.tsx, lines 17-26: the per-mention bar's label. -/
def sentimentBarLabel (score : ℚ) : SentimentLabel :=
  if score > 1/10 then SentimentLabel.positive
  else if score < -(1/10) then SentimentLabel.negative
  else SentimentLabel.neutral

/-- SentimentTimeline.tsx, lines 45-46: the tooltip's label. -/
def timelineTooltipLabel (sentiment : ℚ) : SentimentLabel :=
  if sentiment > 1/10 then SentimentLabel.positive
  else if sentiment < -(1/10) then SentimentLabel.negative
  else SentimentLabel.neutral

/-- The colour the charts draw for each label. -/
def labelColor : SentimentLabel → String
  | SentimentLabel.positive => "#22c55e"
  | SentimentLabel.negative => "#ef4444"
  | SentimentLabel.neutral => "#9ca3af"

/-- PlayerDetail.tsx, lines 394-401: the excerpt card's border colour. -/
def excerptBorderColor (sentiment : ℚ) : String :=
  if sentiment > 1/10 then "#22c55e"
  else if sentiment < -(1/10) then "#ef4444"
  else "#9ca3af"

/-- PlayerComparisonChart (in src/frontend/src/api/client.ts's file,
lines 254-257): getBarColor's sentiment branch. -/
def getBarColorSentiment (value : ℚ) : String :=
  if value > 1/10 then "#22c55e"
  else if value < -(1/10) then "#ef4444"
  else "#9ca3af"

/-- PlayerDetail.tsx, lines 212-218 (and again lines 231-237): the polarity
label attached to an adjective's numeric sentiment.  Note the threshold here
is 0, not ±0.1. -/
def adjectivePolarity (sentiment : ℚ) : SentimentLabel :=
  if sentiment > 0 then SentimentLabel.positive
  else if sentiment < 0 then SentimentLabel.negative
  else SentimentLabel.neutral

/-- PlayerDetail.tsx, lines 312-317: the sentiment-skew indicator text. -/
def sentimentSkewLabel (avg : ℚ) : String :=
  if |avg| > 3/10 then "Strong"
  else if |avg| > 1/10 then "Moderate"
  else "Minimal"

/-- AdjectiveDetail (src/unnamed/part_006, lines 46-50). -/
structure AdjectiveDetail where
  word : String
  count : ℕ
  sentiment : Option ℚ
deriving DecidableEq, Repr

/-- PhraseDetail (src/unnamed/part_006, lines 52-56). -/
structure PhraseDetail where
  phrase : String
  count : ℕ
  context : Option String
deriving DecidableEq, Repr

/-- ExcerptDetail (src/unnamed/part_006, lines 58-62). -/
structure ExcerptDetail where
  text : String
  sentiment : ℚ
  position : Option ℕ
deriving DecidableEq, Repr

/-- The analysis fields of AnalysisResult (src/unnamed/part_006,
lines 64-76); the persistence metadata (id, timestamps) lives with the
storage collaborator and is outside the analysis core. -/
structure AnalysisResult where
  player_id : String
  sentiment_score : Option ℚ
  sentiment_label : Option SentimentLabel
  mention_count : ℕ
  adjectives : List AdjectiveDetail
  phrases : List PhraseDetail
  excerpts : List ExcerptDetail
deriving DecidableEq, Repr

/-- PlayerAnalysisSummary (src/unnamed/part_006, lines 78-87). -/
structure PlayerAnalysisSummary where
  player_id : String
  player_name : String
  total_mentions : ℕ
  average_sentiment : Option ℚ
  sentiment_label : Option SentimentLabel
  top_adjectives : List AdjectiveDetail
  top_phrases : List PhraseDetail
  transcript_count : ℕ
deriving DecidableEq, Repr

/-- Arithmetic mean of a list of rationals (0 for the empty list, since
`q / 0 = 0` in ℚ). -/
def mean (xs : List ℚ) : ℚ := xs.sum / xs.length

/-- Modelled from the spec: the Per-Transcript Aggregator (§4.5) is not
under src/ (only its output type is declared); `sentiment_score` is the
arithmetic mean of the player's mention sentiments, null if no mentions. -/
def sentimentScore (mentionSentiments : List ℚ) : Option ℚ :=
  if mentionSentiments = [] then none else some (mean mentionSentiments)

/-- Total mentions across a player's per-transcript results. -/
def totalMentions (results : List AnalysisResult) : ℕ :=
  (results.map (fun r => r.mention_count)).sum

/-- Mention-count-weighted sentiment mass across results (a null
per-transcript score carries weight but zero mass, matching a zero-mention
result contributing zero weight). -/
def weightedSentimentSum (results : List AnalysisResult) : ℚ :=
  (results.map (fun r => r.sentiment_score.getD 0 * (r.mention_count : ℚ))).sum

/-- Modelled from the spec: the Cross-Transcript Aggregator (§4.5) is not
under src/; `average_sentiment` is the mention-count-weighted mean of the
per-transcript scores, null exactly when `total_mentions` is 0 (§3). -/
def averageSentiment (results : List AnalysisResult) : Option ℚ :=
  if totalMentions results = 0 then none
  else some (weightedSentimentSum results / (totalMentions results : ℚ))

/-- Descending-count order on adjectives with the lexicographic tie-break
on the word (§4.5). -/
def adjOrder (a b : AdjectiveDetail) : Prop :=
  b.count < a.count ∨ (a.count = b.count ∧ a.word ≤ b.word)

instance : DecidableRel adjOrder :=
  fun a b => by unfold adjOrder; exact inferInstance

instance : IsTrans AdjectiveDetail adjOrder where
  trans a b c hab hbc := by
    rcases hab with h1 | ⟨h1, h1w⟩ <;> rcases hbc with h2 | ⟨h2, h2w⟩
    · exact Or.inl (h2.trans h1)
    · exact Or.inl (h2 ▸ h1)
    · exact Or.inl (h1 ▸ h2)
    · exact Or.inr ⟨h1.trans h2, h1w.trans h2w⟩

instance : IsTotal AdjectiveDetail adjOrder where
  total a b := by
    rcases lt_trichotomy a.count b.count with h | h | h
    · exact Or.inr (Or.inl h)
    · rcases le_total a.word b.word with hw | hw
      · exact Or.inl (Or.inr ⟨h, hw⟩)
      · exact Or.inr (Or.inr ⟨h.symm, hw⟩)
    · exact Or.inl (Or.inl h)

/-- Descending-count order on phrases, same tie-break rule. -/
def phraseOrder (a b : PhraseDetail) : Prop :=
  b.count < a.count ∨ (a.count = b.count ∧ a.phrase ≤ b.phrase)

instance : DecidableRel phraseOrder :=
  fun a b => by unfold phraseOrder; exact inferInstance

instance : IsTrans PhraseDetail phraseOrder where
  trans a b c hab hbc := by
    rcases hab with h1 | ⟨h1, h1w⟩ <;> rcases hbc with h2 | ⟨h2, h2w⟩
    · exact Or.inl (h2.trans h1)
    · exact Or.inl (h2 ▸ h1)
    · exact Or.inl (h1 ▸ h2)
    · exact Or.inr ⟨h1.trans h2, h1w.trans h2w⟩

instance : IsTotal PhraseDetail phraseOrder where
  total a b := by
    rcases lt_trichotomy a.count b.count with h | h | h
    · exact Or.inr (Or.inl h)
    · rcases le_total a.phrase b.phrase with hw | hw
      · exact Or.inl (Or.inr ⟨h, hw⟩)
      · exact Or.inr (Or.inr ⟨h.symm, hw⟩)
    · exact Or.inl (Or.inl h)

/-- Modelled from the spec: adjectives are "counted and sorted descending by
count, ties broken lexicographically" (§4.5); the sorting code is not under
src/ (WordCloud.tsx and the word-frequency chart only consume the lists). -/
def sortAdjectives (l : List AdjectiveDetail) : List AdjectiveDetail :=
  l.insertionSort adjOrder

/-- Modelled from the spec: phrase lists use the same ordering rule (§4.5). -/
def sortPhrases (l : List PhraseDetail) : List PhraseDetail :=
  l.insertionSort phraseOrder

/-- Fold one adjective occurrence batch into an accumulator, summing counts
for an already-seen word (the first occurrence's sentiment estimate is
kept). -/
def addAdjective (acc : List AdjectiveDetail) (a : AdjectiveDetail) :
    List AdjectiveDetail :=
  if acc.any (fun b => b.word == a.word) then
    acc.map (fun b =>
      if b.word == a.word then { b with count := b.count + a.count } else b)
  else acc ++ [a]

/-- Modelled from the spec: `top_adjectives` re-aggregates "by summing
counts across transcripts" (§4.5); the aggregation code is not under src/. -/
def aggregateAdjectives (batches : List (List AdjectiveDetail)) :
    List AdjectiveDetail :=
  batches.foldl (fun acc l => l.foldl addAdjective acc) []

/-- Same re-aggregation for phrases. -/
def addPhrase (acc : List PhraseDetail) (p : PhraseDetail) : List PhraseDetail :=
  if acc.any (fun b => b.phrase == p.phrase) then
    acc.map (fun b =>
      if b.phrase == p.phrase then { b with count := b.count + p.count } else b)
  else acc ++ [p]

/-- Modelled from the spec: `top_phrases` across transcripts (§4.5). -/
def aggregatePhrases (batches : List (List PhraseDetail)) : List PhraseDetail :=
  batches.foldl (fun acc l => l.foldl addPhrase acc) []

/-- Cross-transcript top adjectives: aggregate, then sort with the same
tie-break rule (§4.5). -/
def topAdjectives (batches : List (List AdjectiveDetail)) : List AdjectiveDetail :=
  sortAdjectives (aggregateAdjectives batches)

/-- Cross-transcript top phrases. -/
def topPhrases (batches : List (List PhraseDetail)) : List PhraseDetail :=
  sortPhrases (aggregatePhrases batches)

/-- Modelled from the spec: building one player's `PlayerAnalysisSummary`
from their per-transcript results (§4.5); recomputed on demand, never
independently mutated (§3). -/
def summarize (pid pname : String) (results : List AnalysisResult) :
    PlayerAnalysisSummary where
  player_id := pid
  player_name := pname
  total_mentions := totalMentions results
  average_sentiment := averageSentiment results
  sentiment_label := (averageSentiment results).map specLabel
  top_adjectives := topAdjectives (results.map (fun r => r.adjectives))
  top_phrases := topPhrases (results.map (fun r => r.phrases))
  transcript_count := results.length

/-- Descending order by total mentions, for mention-volume rankings. -/
def mentionOrder (a b : PlayerAnalysisSummary) : Prop :=
  b.total_mentions ≤ a.total_mentions

instance : DecidableRel mentionOrder :=
  fun a b => by unfold mentionOrder; exact inferInstance

/-- Modelled from the spec: `top_players`-style rankings (§8) list players
by mention volume with a numeric sentiment attached, so players whose
`average_sentiment` is null are excluded; the ranking code is not under
src/ (the dashboard and commentator pages only render the list). -/
def topPlayers (summaries : List PlayerAnalysisSummary) :
    List PlayerAnalysisSummary :=
  (summaries.filter (fun s => s.average_sentiment.isSome)).insertionSort
    mentionOrder

/-- PlayerDetail.tsx, lines 150-154: the Avg Sentiment card renders a signed
number for a non-null average and the text N/A otherwise (the decimal
formatting of `toFixed(2)` is abstracted to `toString`). -/
def avgSentimentText (avg : Option ℚ) : String :=
  match avg with
  | none => "N/A"
  | some v => (if 0 < v then "+" else "") ++ toString v

/-- Largest sentiment in a list (JS `Math.max(...)`; only used on non-empty
lists, 0 as the vacuous base). -/
def listMax : List ℚ → ℚ
  | [] => 0
  | [x] => x
  | x :: y :: rest => max x (listMax (y :: rest))

/-- Smallest sentiment in a list (JS `Math.min(...)`). -/
def listMin : List ℚ → ℚ
  | [] => 0
  | [x] => x
  | x :: y :: rest => min x (listMin (y :: rest))

/-- Modelled from the spec: the Bias Scorer's sentiment-skew indicator
(§4.6), `|average_sentiment|` (0 for a player with no data). -/
def skewIndicator (s : PlayerAnalysisSummary) : ℚ :=
  |s.average_sentiment.getD 0|

/-- Total mentions over a comparison cohort. -/
def cohortMentions (cohort : List PlayerAnalysisSummary) : ℕ :=
  (cohort.map (fun s => s.total_mentions)).sum

/-- A player's share of the cohort's mentions (0 when the cohort has no
mentions at all). -/
def mentionShare (s : PlayerAnalysisSummary)
    (cohort : List PlayerAnalysisSummary) : ℚ :=
  if cohortMentions cohort = 0 then 0
  else (s.total_mentions : ℚ) / (cohortMentions cohort : ℚ)

/-- Modelled from the spec: the coverage-disparity indicator (§4.6) —
deviation of a player's mention share from the equal share `1/n`,
normalized by the maximum possible deviation `1 - 1/n`. -/
def coverageIndicator (s : PlayerAnalysisSummary)
    (cohort : List PlayerAnalysisSummary) : ℚ :=
  |mentionShare s cohort - 1 / (cohort.length : ℚ)| /
    (1 - 1 / (cohort.length : ℚ))

/-- Share of a player's descriptive adjectives whose inherited sentiment is
labelled positive (0 when no adjectives were recorded). -/
def positiveAdjectiveRatio (s : PlayerAnalysisSummary) : ℚ :=
  if s.top_adjectives.length = 0 then 0
  else ((s.top_adjectives.filter
          (fun a => specLabel (a.sentiment.getD 0) = SentimentLabel.positive)).length : ℚ) /
        (s.top_adjectives.length : ℚ)

/-- Modelled from the spec: the language-valence-disparity indicator (§4.6)
— difference between a player's positive-adjective ratio and the cohort
mean positive-adjective ratio. -/
def valenceIndicator (s : PlayerAnalysisSummary)
    (cohort : List PlayerAnalysisSummary) : ℚ :=
  |positiveAdjectiveRatio s - mean (cohort.map positiveAdjectiveRatio)|

/-- The three normalized indicators of §4.6 for one player of a cohort. -/
def biasIndicators (s : PlayerAnalysisSummary)
    (cohort : List PlayerAnalysisSummary) : List ℚ :=
  [skewIndicator s, coverageIndicator s cohort, valenceIndicator s cohort]

/-- Modelled from the spec: `bias_score` is the weighted sum of the
indicator scores with the default equal weights (§4.6), i.e. their mean. -/
def biasScore (s : PlayerAnalysisSummary)
    (cohort : List PlayerAnalysisSummary) : ℚ :=
  mean (biasIndicators s cohort)

/-- Population variance of a list of rationals (0 for the empty list). -/
def listVariance (xs : List ℚ) : ℚ :=
  mean (xs.map (fun x => (x - mean xs) ^ 2))

/-- Variance normalized by its maximum possible value 1/4 for data in
[0, 1], so that it lies in [0, 1]. -/
def normalizedVariance (xs : List ℚ) : ℚ := 4 * listVariance xs

/-- Modelled from the spec: `fairness_score` = 1 − normalized variance of
the cohort's bias scores (§4.6). -/
def fairnessScore (biasScores : List ℚ) : ℚ := 1 - normalizedVariance biasScores

/-- First element maximizing `f` (JS-style left fold; `none` on empty). -/
def argmaxBy {α : Type} (f : α → ℚ) : List α → Option α
  | [] => none
  | x :: xs => some (xs.foldl (fun b a => if f b < f a then a else b) x)

/-- First element minimizing `f`. -/
def argminBy {α : Type} (f : α → ℚ) : List α → Option α
  | [] => none
  | x :: xs => some (xs.foldl (fun b a => if f a < f b then a else b) x)

/-- §4.6 ranking order: `bias_score` descending, ties by higher
`|average_sentiment|`, then alphabetical on name. -/
def biasRankOrder (a b : PlayerAnalysisSummary × ℚ) : Prop :=
  b.2 < a.2 ∨ (a.2 = b.2 ∧
    (|b.1.average_sentiment.getD 0| < |a.1.average_sentiment.getD 0| ∨
      (|a.1.average_sentiment.getD 0| = |b.1.average_sentiment.getD 0| ∧
        a.1.player_name ≤ b.1.player_name)))

instance : DecidableRel biasRankOrder :=
  fun a b => by unfold biasRankOrder; exact inferInstance

/-- The ComparativeAnalysis record (src/unnamed/part_006, lines 123-129);
per §7 the three headline fields are null/undefined when the comparison set
is insufficient, so they are optional here. -/
structure ComparativeAnalysis where
  fairness_score : Option ℚ
  most_favored : Option String
  least_favored : Option String
  disparity_score : ℚ
  players : List (PlayerAnalysisSummary × ℚ)
deriving DecidableEq

/-- Modelled from the spec: the Bias Scorer's comparison entry point (§4.6,
§7) is not under src/ (Compare.tsx only consumes its response).  With fewer
than 2 players having non-null sentiment it returns the
InsufficientComparisonSet shape — `fairness_score`, `most_favored` and
`least_favored` all null — rather than throwing. -/
def compareBias (summaries : List PlayerAnalysisSummary) : ComparativeAnalysis :=
  let withData := summaries.filter (fun s => s.average_sentiment.isSome)
  if withData.length < 2 then
    { fairness_score := none
      most_favored := none
      least_favored := none
      disparity_score := 0
      players := [] }
  else
    let scored := withData.map (fun s => (s, biasScore s withData))
    let scores := scored.map (fun p => p.2)
    { fairness_score := some (fairnessScore scores)
      most_favored :=
        (argmaxBy (fun s => s.average_sentiment.getD 0) withData).map
          (fun s => s.player_id)
      least_favored :=
        (argminBy (fun s => s.average_sentiment.getD 0) withData).map
          (fun s => s.player_id)
      disparity_score := listMax scores - listMin scores
      players := scored.insertionSort biasRankOrder }

/-- Compare.tsx, lines 31-49: the selection effect returns before issuing
any comparison request when fewer than 2 players are selected. -/
def compareRequestIssued (selectedIds : List String) : Bool :=
  decide (2 ≤ selectedIds.length)

/-- Compare.tsx, lines 105-110: the select-at-least-2 prompt is rendered
exactly when fewer than 2 players are selected. -/
def showsSelectPrompt (selectedIds : List String) : Bool :=
  decide (selectedIds.length < 2)

/-- SentimentBar.tsx, line 12: `((score + 1) / 2) * 100`. -/
def sentimentPercentage (score : ℚ) : ℚ := (score + 1) / 2 * 100

/-- PlayerComparisonChart radar data (client.ts's file, line 327):
`(sentiment + 1) / 2`. -/
def radarSentiment (sentiment : ℚ) : ℚ := (sentiment + 1) / 2

/-- getYAxisDomain (client.ts's file, lines 271-280): the bias branch. -/
def biasAxisDomain : ℚ × ℚ := (0, 1)

/-- The roster fields the resolver reads (§3; src/unnamed/part_006,
lines 28-37 declares the full record). -/
structure Player where
  player_id : String
  name : String
  aliases : List String
  team : Option String
deriving DecidableEq, Repr

/-- One frozen model output for a resolved mention: which roster entry it
resolved to, its span in the source text, the sentiment the external
classifier returned for its context window, and the descriptive language
the extractor found there (§6). -/
structure MentionOutput where
  playerIdx : ℕ
  start : ℕ
  len : ℕ
  sentiment : ℚ
  adjectives : List AdjectiveDetail
  phrases : List PhraseDetail
deriving DecidableEq, Repr

/-- Order for the excerpt cap of §4.5: highest |sentiment| first. -/
def excerptOrder (a b : MentionOutput) : Prop :=
  |b.sentiment| ≤ |a.sentiment|

instance : DecidableRel excerptOrder :=
  fun a b => by unfold excerptOrder; exact inferInstance

/-- The quoted excerpt an output's span denotes. -/
def excerptOf (text : String) (m : MentionOutput) : ExcerptDetail where
  text := (text.drop m.start).take m.len
  sentiment := m.sentiment
  position := some m.start

/-- Modelled from the spec: the per-transcript result for one roster entry
(§4.5) — mean mention sentiment, threshold label, sorted descriptive
language, excerpts capped at the 10 highest-|sentiment| mentions. -/
def analyzeFor (text : String) (idx : ℕ) (pid : String)
    (outputs : List MentionOutput) : AnalysisResult :=
  let ms := outputs.filter (fun m => m.playerIdx == idx)
  let score := sentimentScore (ms.map (fun m => m.sentiment))
  { player_id := pid
    sentiment_score := score
    sentiment_label := score.map specLabel
    mention_count := ms.length
    adjectives := sortAdjectives (aggregateAdjectives (ms.map (fun m => m.adjectives)))
    phrases := sortPhrases (aggregatePhrases (ms.map (fun m => m.phrases)))
    excerpts := ((ms.insertionSort excerptOrder).take 10).map (excerptOf text) }

/-- Modelled from the spec: the full per-transcript pipeline (§2, §4) is not
under src/; given a transcript, a roster snapshot and frozen model outputs
it is the pure composition resolve → attribute → aggregate, one result per
roster entry. -/
def runPipeline (text : String) (roster : List Player)
    (outputs : List MentionOutput) : List AnalysisResult :=
  (List.range roster.length).map (fun idx =>
    analyzeFor text idx (((roster.get? idx).map (fun p => p.player_id)).getD "") outputs)

/-- JS strings as character lists, for code that computes on their
contents (Upload.tsx's file-name handling). -/
def jsLower (s : List Char) : List Char := s.map Char.toLower

/-- `String.prototype.split('.')`: `[]` never occurs; a name with no dot
yields the single segment that is the whole name, exactly as in JS. -/
def splitOnDot : List Char → List (List Char)
  | [] => [[]]
  | c :: rest =>
    if c = Char.ofNat 46 then [] :: splitOnDot rest
    else
      match splitOnDot rest with
      | [] => [[c]]
      | seg :: segs => (c :: seg) :: segs

/-- The selected file as Upload.tsx sees it: name and byte size. -/
structure SelectedFile where
  name : List Char
  size : ℕ
deriving DecidableEq, Repr

/-- The two pieces of component state validateAndSetFile touches. -/
structure UploadState where
  file : Option SelectedFile
  error : Option String
deriving DecidableEq, Repr

/-- Upload.tsx, line 53. -/
def allowedExtensions : List (List Char) :=
  [['t', 'x', 't'], ['s', 'r', 't'], ['v', 't', 't'], ['j', 's', 'o', 'n']]

/-- Upload.tsx, line 54: `selectedFile.name.split('.').pop()?.toLowerCase()`;
`pop` on the never-empty segment list is `getLastD []`. -/
def fileExtension (selectedFile : SelectedFile) : List Char :=
  jsLower ((splitOnDot selectedFile.name).getLastD [])

/-- Upload.tsx, lines 52-68: the extension and size checks and the state
updates of validateAndSetFile. -/
def validateAndSetFile (st : UploadState) (selectedFile : SelectedFile) :
    UploadState :=
  if fileExtension selectedFile = [] ∨
      fileExtension selectedFile ∉ allowedExtensions then
    { st with error := some "Invalid file type. Allowed: txt, srt, vtt, json" }
  else if 10 * 1024 * 1024 < selectedFile.size then
    { st with error := some "File too large. Maximum size: 10MB" }
  else
    { file := some selectedFile, error := none }

/-- The acceptance condition exactly as the claim words it: the name has a
last dot, the extension after it lowercases to an allowed extension, and
the size is at most 10·1024·1024 bytes. -/
def claimAcceptsFile (f : SelectedFile) : Bool :=
  decide (1 < (splitOnDot f.name).length) &&
    decide (fileExtension f ∈ allowedExtensions) &&
    decide (f.size ≤ 10 * 1024 * 1024)

/-- SentimentDistribution (src/unnamed/part_000, lines 14-26): `none` is
the empty state, otherwise the three percentages `count / total * 100`. -/
def sentimentDistribution (positive negative neutral : ℚ) :
    Option (ℚ × ℚ × ℚ) :=
  if positive + negative + neutral = 0 then none
  else some
    (positive / (positive + negative + neutral) * 100,
      negative / (positive + negative + neutral) * 100,
      neutral / (positive + negative + neutral) * 100)

/-- One point of the sentiment timeline (PlayerDetail.tsx, lines 8-12). -/
structure TimelineDataPoint where
  position : ℕ
  sentiment : ℚ
deriving DecidableEq, Repr

/-- SentimentTimeline.tsx, lines 71-79: the split-colour gradient offset. -/
def gradientOffset (data : List TimelineDataPoint) : ℚ :=
  if listMax (data.map (fun d => d.sentiment)) ≤ 0 then 0
  else if 0 ≤ listMin (data.map (fun d => d.sentiment)) then 1
  else
    listMax (data.map (fun d => d.sentiment)) /
      (listMax (data.map (fun d => d.sentiment)) -
        listMin (data.map (fun d => d.sentiment)))

theorem length_cast_pos {xs : List ℚ} (h : xs ≠ []) : (0 : ℚ) < xs.length := by
  have := List.length_pos.mpr h
  exact_mod_cast this

theorem mean_le_of_forall_le (xs : List ℚ) (b : ℚ) (hne : xs ≠ [])
    (h : ∀ x ∈ xs, x ≤ b) : mean xs ≤ b := by
  have hL := length_cast_pos hne
  rw [mean, div_le_iff hL]
  have := List.sum_le_card_nsmul xs b h
  rw [nsmul_eq_mul] at this
  linarith

theorem le_mean_of_forall_le (xs : List ℚ) (a : ℚ) (hne : xs ≠ [])
    (h : ∀ x ∈ xs, a ≤ x) : a ≤ mean xs := by
  have hL := length_cast_pos hne
  rw [mean, le_div_iff hL]
  have := List.card_nsmul_le_sum xs a h
  rw [nsmul_eq_mul] at this
  linarith

theorem mean_nonneg_of_forall (xs : List ℚ) (h : ∀ x ∈ xs, 0 ≤ x) :
    0 ≤ mean xs :=
  div_nonneg (List.sum_nonneg h) (Nat.cast_nonneg _)

theorem sum_sq_dev (xs : List ℚ) (m : ℚ) :
    (xs.map (fun x => (x - m) ^ 2)).sum
      = (xs.map (fun x => x ^ 2)).sum - 2 * m * xs.sum + (xs.length : ℚ) * m ^ 2 := by
  induction xs with
  | nil => simp
  | cons x xs ih =>
    simp only [List.map_cons, List.sum_cons, List.length_cons, ih]
    push_cast
    ring

theorem sum_sq_le_sum (xs : List ℚ) (h : ∀ x ∈ xs, 0 ≤ x ∧ x ≤ 1) :
    (xs.map (fun x => x ^ 2)).sum ≤ xs.sum := by
  induction xs with
  | nil => simp
  | cons x xs ih =>
    simp only [List.map_cons, List.sum_cons]
    have hx := h x (by simp)
    have hxs : ∀ y ∈ xs, 0 ≤ y ∧ y ≤ 1 := fun y hy => h y (by simp [hy])
    have hsq : x ^ 2 ≤ x := by nlinarith [hx.1, hx.2]
    linarith [ih hxs]

theorem listVariance_nonneg (xs : List ℚ) : 0 ≤ listVariance xs := by
  apply mean_nonneg_of_forall
  intro y hy
  obtain ⟨x, -, rfl⟩ := List.mem_map.mp hy
  positivity

theorem listVariance_le_quarter (xs : List ℚ) (hne : xs ≠ [])
    (h : ∀ x ∈ xs, 0 ≤ x ∧ x ≤ 1) : listVariance xs ≤ 1 / 4 := by
  have hL := length_cast_pos hne
  have hm0 : 0 ≤ mean xs := mean_nonneg_of_forall xs (fun x hx => (h x hx).1)
  have hm1 : mean xs ≤ 1 := mean_le_of_forall_le xs 1 hne (fun x hx => (h x hx).2)
  have hsum : xs.sum = (xs.length : ℚ) * mean xs := by
    rw [mean]
    field_simp
  have hkey : (xs.map (fun x => (x - mean xs) ^ 2)).sum
      = (xs.map (fun x => x ^ 2)).sum - (xs.length : ℚ) * mean xs ^ 2 := by
    rw [sum_sq_dev, hsum]
    ring
  have hsq := sum_sq_le_sum xs h
  rw [listVariance, mean, List.length_map, hkey, div_le_iff hL]
  nlinarith [sq_nonneg (mean xs - 1 / 2), hsq, hsum, hL]

theorem fairnessScore_mem_unit (bs : List ℚ) (hne : bs ≠ [])
    (h : ∀ b ∈ bs, 0 ≤ b ∧ b ≤ 1) :
    0 ≤ fairnessScore bs ∧ fairnessScore bs ≤ 1 := by
  have h0 := listVariance_nonneg bs
  have h4 := listVariance_le_quarter bs hne h
  unfold fairnessScore normalizedVariance
  constructor <;> linarith

/-- C1 (counterexample): the score 0.05 is labelled positive by the
adjective-polarity derivation in PlayerDetail.tsx but neutral by the
per-mention SentimentBar derivation, so the program does not compute one
single ±0.1-threshold label function everywhere. -/
theorem c1_threshold_counterexample :
    adjectivePolarity (1/20) = SentimentLabel.positive ∧
    sentimentBarLabel (1/20) = SentimentLabel.neutral ∧
    specLabel (1/20) = SentimentLabel.neutral := by
  refine ⟨?_, ?_, ?_⟩ <;> norm_num [adjectivePolarity, sentimentBarLabel, specLabel]

/-- C1 (amended): the per-mention bar, the timeline tooltip, the excerpt
border, the comparison-chart bar colour and the (spec-modelled) per-summary
label all compute the spec's ±0.1 threshold function, but the adjective
polarity in PlayerDetail.tsx uses the sign of the score instead and agrees
with the threshold function exactly when the score is 0 or lies outside
(-0.1, 0.1]. -/
theorem c1_label_derivations :
    (∀ s : ℚ, sentimentBarLabel s = specLabel s) ∧
    (∀ s : ℚ, timelineTooltipLabel s = specLabel s) ∧
    (∀ s : ℚ, excerptBorderColor s = labelColor (specLabel s)) ∧
    (∀ s : ℚ, getBarColorSentiment s = labelColor (specLabel s)) ∧
    (∀ pid pname rs, (summarize pid pname rs).sentiment_label =
      ((summarize pid pname rs).average_sentiment).map specLabel) ∧
    (∀ s : ℚ, adjectivePolarity s = specLabel s ↔
      s = 0 ∨ 1/10 < s ∨ s < -(1/10)) := by
  refine ⟨fun s => rfl, fun s => rfl, ?_, ?_, fun pid pname rs => rfl, ?_⟩
  · intro s
    unfold excerptBorderColor specLabel labelColor
    split_ifs <;> rfl
  · intro s
    unfold getBarColorSentiment specLabel labelColor
    split_ifs <;> rfl
  · intro s
    rcases lt_trichotomy s 0 with hneg | rfl | hpos
    · have e1 : adjectivePolarity s = SentimentLabel.negative := by
        unfold adjectivePolarity
        rw [if_neg (by linarith), if_pos hneg]
      by_cases hm : s < -(1/10)
      · have e2 : specLabel s = SentimentLabel.negative := by
          unfold specLabel
          rw [if_neg (by linarith), if_pos hm]
        rw [e1, e2]
        exact iff_of_true rfl (Or.inr (Or.inr hm))
      · have e2 : specLabel s = SentimentLabel.neutral := by
          unfold specLabel
          rw [if_neg (by linarith), if_neg hm]
        rw [e1, e2]
        refine iff_of_false (by decide) ?_
        push_neg
        exact ⟨ne_of_lt hneg, by linarith, not_lt.mp hm⟩
    · have e1 : adjectivePolarity 0 = SentimentLabel.neutral := by
        unfold adjectivePolarity
        norm_num
      have e2 : specLabel 0 = SentimentLabel.neutral := by
        unfold specLabel
        norm_num
      rw [e1, e2]
      exact iff_of_true rfl (Or.inl rfl)
    · have e1 : adjectivePolarity s = SentimentLabel.positive := by
        unfold adjectivePolarity
        rw [if_pos hpos]
      by_cases hp : 1/10 < s
      · have e2 : specLabel s = SentimentLabel.positive := by
          unfold specLabel
          rw [if_pos hp]
        rw [e1, e2]
        exact iff_of_true rfl (Or.inr (Or.inl hp))
      · have e2 : specLabel s = SentimentLabel.neutral := by
          unfold specLabel
          rw [if_neg hp, if_neg (by linarith)]
        rw [e1, e2]
        refine iff_of_false (by decide) ?_
        push_neg
        exact ⟨ne_of_gt hpos, not_lt.mp hp, by linarith⟩

/-- C2 (counterexample): a summary whose average sentiment is exactly 0.3
has |average_sentiment| ≥ 0.3 yet is classified Moderate, not Strong. -/
theorem c2_skew_boundary_counterexample :
    (3/10 : ℚ) ≤ |(3/10 : ℚ)| ∧ sentimentSkewLabel (3/10) = "Moderate" := by
  constructor
  · rw [abs_of_nonneg (by norm_num)]
  · unfold sentimentSkewLabel
    rw [abs_of_nonneg (by norm_num)]
    norm_num

/-- C2 (amended): the sentiment-skew indicator classifies a summary as
Strong exactly when |average_sentiment| is strictly greater than 0.3; the
boundary value 0.3 itself is Moderate. -/
theorem c2_skew_strong_iff (avg : ℚ) :
    sentimentSkewLabel avg = "Strong" ↔ 3/10 < |avg| := by
  unfold sentimentSkewLabel
  split_ifs with h1 h2
  · exact iff_of_true rfl h1
  · exact iff_of_false (by decide) h1
  · exact iff_of_false (by decide) h1

/-- C3: for every player summary, `average_sentiment` is null exactly when
`total_mentions` is 0; every summary whose sentiment is null is excluded
from top-player rankings, and its Avg Sentiment card renders the text N/A
rather than a number. -/
theorem c3_null_sentiment_invariant (pid pname : String)
    (results : List AnalysisResult) (summaries : List PlayerAnalysisSummary)
    (s : PlayerAnalysisSummary) :
    ((summarize pid pname results).average_sentiment = none ↔
      (summarize pid pname results).total_mentions = 0) ∧
    (s.average_sentiment = none → s ∉ topPlayers summaries) ∧
    (s.average_sentiment = none →
      avgSentimentText s.average_sentiment = "N/A") := by
  refine ⟨?_, ?_, ?_⟩
  · show averageSentiment results = none ↔ totalMentions results = 0
    unfold averageSentiment
    split_ifs with h
    · exact iff_of_true rfl h
    · exact iff_of_false (by simp) h
  · intro hnone hmem
    unfold topPlayers at hmem
    rw [List.mem_insertionSort] at hmem
    have := (List.mem_filter.mp hmem).2
    rw [hnone] at this
    simp at this
  · intro hnone
    rw [hnone]
    rfl

/-- C4: a bias comparison over fewer than 2 players with non-null sentiment
(in particular over exactly one player) yields the InsufficientComparisonSet
shape — `fairness_score`, `most_favored`, `least_favored` all null — from a
total function, and with fewer than 2 selected players the frontend issues
no comparison request and renders the select-at-least-2 prompt. -/
theorem c4_insufficient_comparison_set (summaries : List PlayerAnalysisSummary)
    (ids : List String) :
    ((summaries.filter (fun s => s.average_sentiment.isSome)).length < 2 →
      (compareBias summaries).fairness_score = none ∧
      (compareBias summaries).most_favored = none ∧
      (compareBias summaries).least_favored = none) ∧
    (ids.length < 2 →
      compareRequestIssued ids = false ∧ showsSelectPrompt ids = true) := by
  constructor
  · intro h
    unfold compareBias
    rw [if_pos h]
    exact ⟨rfl, rfl, rfl⟩
  · intro h
    constructor
    · unfold compareRequestIssued
      simp only [decide_eq_false_iff_not]
      omega
    · unfold showsSelectPrompt
      simp only [decide_eq_true_eq]
      exact h

/-- C4 at the concrete one-player input the spec's scenario names. -/
theorem c4_one_player_witness :
    (compareBias
        [{ player_id := "p1", player_name := "Smith", total_mentions := 4,
           average_sentiment := some (1/2),
           sentiment_label := some SentimentLabel.positive,
           top_adjectives := [], top_phrases := [],
           transcript_count := 1 }]).fairness_score = none ∧
    compareRequestIssued ["p1"] = false := by
  have h := c4_insufficient_comparison_set
    [{ player_id := "p1", player_name := "Smith", total_mentions := 4,
       average_sentiment := some (1/2),
       sentiment_label := some SentimentLabel.positive,
       top_adjectives := [], top_phrases := [],
       transcript_count := 1 }] ["p1"]
  exact ⟨(h.1 (by decide)).1, (h.2 (by decide)).1⟩

theorem abs_weightedSentimentSum_le (rs : List AnalysisResult)
    (h : ∀ r ∈ rs, |r.sentiment_score.getD 0| ≤ 1) :
    |weightedSentimentSum rs| ≤ (totalMentions rs : ℚ) := by
  induction rs with
  | nil => simp [weightedSentimentSum, totalMentions]
  | cons r rs ih =>
    have hr := h r (by simp)
    have hrs : ∀ t ∈ rs, |t.sentiment_score.getD 0| ≤ 1 :=
      fun t ht => h t (by simp [ht])
    have hterm : |r.sentiment_score.getD 0 * (r.mention_count : ℚ)|
        ≤ (r.mention_count : ℚ) := by
      rw [abs_mul, abs_of_nonneg (by positivity : (0:ℚ) ≤ (r.mention_count : ℚ))]
      calc |r.sentiment_score.getD 0| * (r.mention_count : ℚ)
          ≤ 1 * (r.mention_count : ℚ) := by
            apply mul_le_mul_of_nonneg_right hr
            positivity
        _ = (r.mention_count : ℚ) := one_mul _
    have hsplit : weightedSentimentSum (r :: rs)
        = r.sentiment_score.getD 0 * (r.mention_count : ℚ) +
          weightedSentimentSum rs := by
      simp [weightedSentimentSum]
    have htot : (totalMentions (r :: rs) : ℚ)
        = (r.mention_count : ℚ) + (totalMentions rs : ℚ) := by
      simp [totalMentions]
    rw [hsplit, htot]
    calc |r.sentiment_score.getD 0 * (r.mention_count : ℚ) + weightedSentimentSum rs|
        ≤ |r.sentiment_score.getD 0 * (r.mention_count : ℚ)| + |weightedSentimentSum rs| :=
          abs_add _ _
      _ ≤ (r.mention_count : ℚ) + (totalMentions rs : ℚ) := by
          have := ih hrs
          linarith

theorem positiveAdjectiveRatio_mem_unit (s : PlayerAnalysisSummary) :
    0 ≤ positiveAdjectiveRatio s ∧ positiveAdjectiveRatio s ≤ 1 := by
  unfold positiveAdjectiveRatio
  split_ifs with h
  · norm_num
  · have hlen : (0:ℚ) < (s.top_adjectives.length : ℚ) := by
      have : 0 < s.top_adjectives.length := Nat.pos_of_ne_zero h
      exact_mod_cast this
    constructor
    · positivity
    · rw [div_le_one hlen]
      have := List.length_filter_le
        (fun a => decide (specLabel (a.sentiment.getD 0) = SentimentLabel.positive))
        s.top_adjectives
      exact_mod_cast this

theorem mentionShare_mem_unit (s : PlayerAnalysisSummary)
    (cohort : List PlayerAnalysisSummary) (hs : s ∈ cohort) :
    0 ≤ mentionShare s cohort ∧ mentionShare s cohort ≤ 1 := by
  unfold mentionShare
  split_ifs with h
  · norm_num
  · have htot : (0:ℚ) < (cohortMentions cohort : ℚ) := by
      have : 0 < cohortMentions cohort := Nat.pos_of_ne_zero h
      exact_mod_cast this
    constructor
    · positivity
    · rw [div_le_one htot]
      have hmem : s.total_mentions ∈ cohort.map (fun t => t.total_mentions) :=
        List.mem_map.mpr ⟨s, hs, rfl⟩
      have := List.le_sum_of_mem hmem
      exact_mod_cast this

theorem inv_length_le_half (cohort : List PlayerAnalysisSummary)
    (hn : 2 ≤ cohort.length) :
    1 / (cohort.length : ℚ) ≤ 1 / 2 ∧ (0:ℚ) < 1 - 1 / (cohort.length : ℚ) := by
  have h2 : (2:ℚ) ≤ (cohort.length : ℚ) := by exact_mod_cast hn
  have hpos : (0:ℚ) < (cohort.length : ℚ) := by linarith
  have hhalf : 1 / (cohort.length : ℚ) ≤ 1 / 2 := by
    rw [div_le_div_iff hpos (by norm_num)]
    linarith
  exact ⟨hhalf, by linarith⟩

theorem coverageIndicator_mem_unit (s : PlayerAnalysisSummary)
    (cohort : List PlayerAnalysisSummary) (hs : s ∈ cohort)
    (hn : 2 ≤ cohort.length) :
    0 ≤ coverageIndicator s cohort ∧ coverageIndicator s cohort ≤ 1 := by
  obtain ⟨hhalf, hden⟩ := inv_length_le_half cohort hn
  obtain ⟨hsh0, hsh1⟩ := mentionShare_mem_unit s cohort hs
  unfold coverageIndicator
  constructor
  · positivity
  · rw [div_le_one hden]
    rw [abs_le]
    constructor <;> linarith

theorem valenceIndicator_mem_unit (s : PlayerAnalysisSummary)
    (cohort : List PlayerAnalysisSummary) (hne : cohort ≠ []) :
    0 ≤ valenceIndicator s cohort ∧ valenceIndicator s cohort ≤ 1 := by
  have hmapne : cohort.map positiveAdjectiveRatio ≠ [] := by
    simpa using hne
  have hmean0 : 0 ≤ mean (cohort.map positiveAdjectiveRatio) :=
    mean_nonneg_of_forall _ (by
      intro y hy
      obtain ⟨t, -, rfl⟩ := List.mem_map.mp hy
      exact (positiveAdjectiveRatio_mem_unit t).1)
  have hmean1 : mean (cohort.map positiveAdjectiveRatio) ≤ 1 :=
    mean_le_of_forall_le _ 1 hmapne (by
      intro y hy
      obtain ⟨t, -, rfl⟩ := List.mem_map.mp hy
      exact (positiveAdjectiveRatio_mem_unit t).2)
  obtain ⟨hr0, hr1⟩ := positiveAdjectiveRatio_mem_unit s
  unfold valenceIndicator
  constructor
  · positivity
  · rw [abs_le]
    constructor <;> linarith

theorem biasScore_mem_unit (s : PlayerAnalysisSummary)
    (cohort : List PlayerAnalysisSummary) (hs : s ∈ cohort)
    (hn : 2 ≤ cohort.length)
    (havg : ∀ t ∈ cohort, |t.average_sentiment.getD 0| ≤ 1) :
    0 ≤ biasScore s cohort ∧ biasScore s cohort ≤ 1 := by
  have hne : cohort ≠ [] := by
    intro h
    rw [h] at hn
    simp at hn
  have h1 : 0 ≤ skewIndicator s ∧ skewIndicator s ≤ 1 :=
    ⟨abs_nonneg _, havg s hs⟩
  have h2 := coverageIndicator_mem_unit s cohort hs hn
  have h3 := valenceIndicator_mem_unit s cohort hne
  have hmem : ∀ x ∈ biasIndicators s cohort, 0 ≤ x ∧ x ≤ 1 := by
    intro x hx
    unfold biasIndicators at hx
    simp only [List.mem_cons, List.not_mem_nil, or_false] at hx
    rcases hx with rfl | rfl | rfl
    · exact h1
    · exact h2
    · exact h3
  have hlne : biasIndicators s cohort ≠ [] := by
    unfold biasIndicators
    simp
  unfold biasScore
  exact ⟨le_mean_of_forall_le _ 0 hlne (fun x hx => (hmem x hx).1),
    mean_le_of_forall_le _ 1 hlne (fun x hx => (hmem x hx).2)⟩

/-- C5: per-transcript and cross-transcript sentiments stay in [-1, 1]
whenever the classifier scores feeding them do; bias and fairness scores
stay in [0, 1]; and the display normalizations — the SentimentBar
percentage, the radar normalization and the bias axis domain — map every
valid score into their intended display ranges. -/
theorem c5_score_and_display_ranges :
    (∀ ss : List ℚ, (∀ x ∈ ss, -1 ≤ x ∧ x ≤ 1) →
      ∀ q, sentimentScore ss = some q → -1 ≤ q ∧ q ≤ 1) ∧
    (∀ rs : List AnalysisResult,
      (∀ r ∈ rs, ∀ p, r.sentiment_score = some p → -1 ≤ p ∧ p ≤ 1) →
      ∀ q, averageSentiment rs = some q → -1 ≤ q ∧ q ≤ 1) ∧
    (∀ cohort s, s ∈ cohort → 2 ≤ cohort.length →
      (∀ t ∈ cohort, |t.average_sentiment.getD 0| ≤ 1) →
      0 ≤ biasScore s cohort ∧ biasScore s cohort ≤ 1) ∧
    (∀ bs : List ℚ, bs ≠ [] → (∀ b ∈ bs, 0 ≤ b ∧ b ≤ 1) →
      0 ≤ fairnessScore bs ∧ fairnessScore bs ≤ 1) ∧
    (∀ q : ℚ, -1 ≤ q → q ≤ 1 →
      0 ≤ sentimentPercentage q ∧ sentimentPercentage q ≤ 100 ∧
      0 ≤ radarSentiment q ∧ radarSentiment q ≤ 1) ∧
    (∀ b : ℚ, 0 ≤ b → b ≤ 1 → biasAxisDomain.1 ≤ b ∧ b ≤ biasAxisDomain.2) := by
  refine ⟨?_, ?_, ?_, ?_, ?_, ?_⟩
  · intro ss h q hq
    unfold sentimentScore at hq
    split_ifs at hq with hne
    have hq' : mean ss = q := Option.some_injective _ hq
    subst hq'
    exact ⟨le_mean_of_forall_le ss (-1) hne (fun x hx => (h x hx).1),
      mean_le_of_forall_le ss 1 hne (fun x hx => (h x hx).2)⟩
  · intro rs h q hq
    unfold averageSentiment at hq
    split_ifs at hq with hzero
    have hq' : weightedSentimentSum rs / (totalMentions rs : ℚ) = q :=
      Option.some_injective _ hq
    have habs : ∀ r ∈ rs, |r.sentiment_score.getD 0| ≤ 1 := by
      intro r hr
      cases hscore : r.sentiment_score with
      | none => simp
      | some p =>
        have := h r hr p hscore
        simp only [Option.getD_some]
        exact abs_le.mpr ⟨this.1, this.2⟩
    have hw := abs_weightedSentimentSum_le rs habs
    have htot : (0:ℚ) < (totalMentions rs : ℚ) := by
      have : 0 < totalMentions rs := Nat.pos_of_ne_zero hzero
      exact_mod_cast this
    have hqabs : |q| ≤ 1 := by
      rw [← hq', abs_div, abs_of_pos htot, div_le_one htot]
      exact hw
    exact abs_le.mp hqabs
  · intro cohort s hs hn havg
    exact biasScore_mem_unit s cohort hs hn havg
  · intro bs hne h
    exact fairnessScore_mem_unit bs hne h
  · intro q h1 h2
    unfold sentimentPercentage radarSentiment
    refine ⟨by linarith, by linarith, by linarith, by linarith⟩
  · intro b h0 h1
    unfold biasAxisDomain
    exact ⟨h0, h1⟩

/-- C5 at concrete inputs: a two-player cohort with sentiments ±0.6. -/
theorem c5_ranges_witness :
    (0:ℚ) ≤ sentimentPercentage (3/5) ∧ sentimentPercentage (3/5) ≤ 100 ∧
    0 ≤ fairnessScore [1/2, 1/2] ∧ fairnessScore [1/2, 1/2] ≤ 1 := by
  have h5 := c5_score_and_display_ranges.2.2.2.1 [1/2, 1/2] (by simp)
    (by intro b hb; rcases List.mem_pair.mp hb with rfl | rfl <;> norm_num)
  have hp := c5_score_and_display_ranges.2.2.2.2.1 (3/5) (by norm_num) (by norm_num)
  exact ⟨hp.1, hp.2.1, h5.1, h5.2⟩

/-- C6: per-result adjective and phrase lists and the cross-transcript
re-aggregated top lists are sorted descending by count, with equal counts
ordered lexicographically by word / phrase — i.e. every adjacent (and by
transitivity every ordered) pair satisfies the descending-count-
lexicographic-tie-break relation. -/
theorem c6_descriptive_language_sorted (l : List AdjectiveDetail)
    (p : List PhraseDetail) (batches : List (List AdjectiveDetail))
    (pbatches : List (List PhraseDetail)) :
    (sortAdjectives l).Pairwise adjOrder ∧
    (sortPhrases p).Pairwise phraseOrder ∧
    (topAdjectives batches).Pairwise adjOrder ∧
    (topPhrases pbatches).Pairwise phraseOrder :=
  ⟨List.sorted_insertionSort adjOrder l,
    List.sorted_insertionSort phraseOrder p,
    List.sorted_insertionSort adjOrder (aggregateAdjectives batches),
    List.sorted_insertionSort phraseOrder (aggregatePhrases pbatches)⟩

/-- C7: the full per-transcript pipeline is a pure function of the
(text, roster snapshot, frozen model outputs) triplet, so any two runs on
the same triplet produce identical `AnalysisResult` lists. -/
theorem c7_pipeline_idempotent (text : String) (roster : List Player)
    (outputs : List MentionOutput) (r₁ r₂ : List AnalysisResult)
    (h₁ : runPipeline text roster outputs = r₁)
    (h₂ : runPipeline text roster outputs = r₂) : r₁ = r₂ :=
  h₁.symm.trans h₂

/-- C7 at a concrete run: one roster entry, one resolved mention. -/
theorem c7_pipeline_idempotent_witness :
    runPipeline "Smith shines tonight"
        [{ player_id := "p1", name := "Smith", aliases := [], team := none }]
        [{ playerIdx := 0, start := 0, len := 5, sentiment := 1/2,
           adjectives := [], phrases := [] }] =
      runPipeline "Smith shines tonight"
        [{ player_id := "p1", name := "Smith", aliases := [], team := none }]
        [{ playerIdx := 0, start := 0, len := 5, sentiment := 1/2,
           adjectives := [], phrases := [] }] :=
  c7_pipeline_idempotent _ _ _ _ _ rfl rfl

/-- C8 (counterexample): a file whose name is exactly "txt" — no dot, so no
extension after a last dot — is nevertheless accepted by validateAndSetFile
(stored, error cleared), because `split('.').pop()` returns the whole name
for a dotless name. -/
theorem c8_dotless_name_counterexample :
    (validateAndSetFile { file := none, error := none }
        { name := ['t', 'x', 't'], size := 0 }).file =
      some { name := ['t', 'x', 't'], size := 0 } ∧
    (validateAndSetFile { file := none, error := none }
        { name := ['t', 'x', 't'], size := 0 }).error = none ∧
    claimAcceptsFile { name := ['t', 'x', 't'], size := 0 } = false := by
  refine ⟨?_, ?_, ?_⟩ <;> decide

/-- C8 (amended): validateAndSetFile accepts a file — stores it and clears
the error — exactly when the last dot-separated segment of its name (the
whole name when it contains no dot), lowercased, is one of txt, srt, vtt,
json and its size is at most 10·1024·1024 bytes; otherwise it records an
error message and leaves the previously selected file unchanged. -/
theorem c8_validate_and_set_file (st : UploadState) (f : SelectedFile) :
    ((validateAndSetFile st f).file = some f ∧
        (validateAndSetFile st f).error = none ↔
      fileExtension f ∈ allowedExtensions ∧ f.size ≤ 10 * 1024 * 1024) ∧
    (fileExtension f ∉ allowedExtensions ∨ 10 * 1024 * 1024 < f.size →
      (validateAndSetFile st f).file = st.file ∧
      (validateAndSetFile st f).error ≠ none) := by
  have hnonempty : ∀ e ∈ allowedExtensions, e ≠ [] := by decide
  unfold validateAndSetFile
  split_ifs with h1 h2
  · refine ⟨⟨?_, ?_⟩, ?_⟩
    · rintro ⟨-, he⟩
      exact absurd he (by simp)
    · rintro ⟨hmem, -⟩
      rcases h1 with hnil | hnot
      · exact absurd hnil (hnonempty _ hmem)
      · exact absurd hmem hnot
    · intro _
      exact ⟨rfl, by simp⟩
  · refine ⟨⟨?_, ?_⟩, ?_⟩
    · rintro ⟨-, he⟩
      exact absurd he (by simp)
    · rintro ⟨-, hsize⟩
      exact absurd h2 (not_lt.mpr hsize)
    · intro _
      exact ⟨rfl, by simp⟩
  · push_neg at h1
    refine ⟨⟨?_, ?_⟩, ?_⟩
    · intro _
      exact ⟨h1.2, not_lt.mp h2⟩
    · intro _
      exact ⟨rfl, rfl⟩
    · intro hc
      rcases hc with hnot | hsize
      · exact absurd h1.2 hnot
      · exact absurd hsize h2

/-- C9: with nonnegative counts, SentimentDistribution renders the empty
state (computing no percentages) exactly when the counts sum to 0, and
otherwise its three percentages `count / total * 100` are nonnegative and
sum to exactly 100. -/
theorem c9_distribution_percentages (p n u : ℚ)
    (hp : 0 ≤ p) (hn : 0 ≤ n) (hu : 0 ≤ u) :
    (p + n + u = 0 → sentimentDistribution p n u = none) ∧
    (p + n + u ≠ 0 →
      sentimentDistribution p n u =
        some (p / (p + n + u) * 100, n / (p + n + u) * 100,
          u / (p + n + u) * 100) ∧
      0 ≤ p / (p + n + u) * 100 ∧
      0 ≤ n / (p + n + u) * 100 ∧
      0 ≤ u / (p + n + u) * 100 ∧
      p / (p + n + u) * 100 + n / (p + n + u) * 100 + u / (p + n + u) * 100
        = 100) := by
  constructor
  · intro h
    unfold sentimentDistribution
    rw [if_pos h]
  · intro h
    have htot : 0 < p + n + u := lt_of_le_of_ne (by linarith) (Ne.symm h)
    refine ⟨?_, ?_, ?_, ?_, ?_⟩
    · unfold sentimentDistribution
      rw [if_neg h]
    · positivity
    · positivity
    · positivity
    · field_simp
      ring

/-- C9 at the concrete counts (1, 1, 2). -/
theorem c9_distribution_witness :
    sentimentDistribution 1 1 2 =
      some (1 / (1 + 1 + 2) * 100, 1 / (1 + 1 + 2) * 100,
        2 / (1 + 1 + 2) * 100) ∧
    (1:ℚ) / (1 + 1 + 2) * 100 + 1 / (1 + 1 + 2) * 100 + 2 / (1 + 1 + 2) * 100
      = 100 := by
  have h := (c9_distribution_percentages 1 1 2 (by norm_num) (by norm_num)
    (by norm_num)).2 (by norm_num)
  exact ⟨h.1, h.2.2.2.2⟩

/-- C10 (counterexample): on the all-zero timeline `[{position 0,
sentiment 0}]` the minimum sentiment is ≥ 0, yet gradientOffset returns 0,
not 1 — the `dataMax ≤ 0` branch fires first. -/
theorem c10_all_zero_counterexample :
    0 ≤ listMin (([{ position := 0, sentiment := 0 }] :
        List TimelineDataPoint).map (fun d => d.sentiment)) ∧
    gradientOffset [{ position := 0, sentiment := 0 }] = 0 := by
  constructor
  · show (0:ℚ) ≤ listMin [0]
    norm_num [listMin]
  · unfold gradientOffset
    norm_num [listMax]

/-- C10 (amended): for every timeline, gradientOffset lies in [0, 1]: it is
0 when the maximum sentiment is ≤ 0 (including all-zero data), 1 when the
maximum is positive and the minimum is ≥ 0, and otherwise
dataMax / (dataMax − dataMin), whose denominator is strictly positive in
that branch, so the division is never by zero and the quotient lies
strictly between 0 and 1. -/
theorem c10_gradient_offset_range (data : List TimelineDataPoint)
    (hne : data ≠ []) :
    0 ≤ gradientOffset data ∧ gradientOffset data ≤ 1 ∧
    (listMax (data.map (fun d => d.sentiment)) ≤ 0 →
      gradientOffset data = 0) ∧
    (0 < listMax (data.map (fun d => d.sentiment)) →
      0 ≤ listMin (data.map (fun d => d.sentiment)) →
      gradientOffset data = 1) ∧
    (0 < listMax (data.map (fun d => d.sentiment)) →
      listMin (data.map (fun d => d.sentiment)) < 0 →
      0 < listMax (data.map (fun d => d.sentiment)) -
          listMin (data.map (fun d => d.sentiment)) ∧
      gradientOffset data =
        listMax (data.map (fun d => d.sentiment)) /
          (listMax (data.map (fun d => d.sentiment)) -
            listMin (data.map (fun d => d.sentiment))) ∧
      0 < gradientOffset data ∧ gradientOffset data < 1) := by
  clear hne
  unfold gradientOffset
  split_ifs with h1 h2
  · refine ⟨le_refl 0, by norm_num, fun _ => rfl, ?_, ?_⟩
    · intro hmax _
      exact absurd h1 (not_le.mpr hmax)
    · intro hmax _
      exact absurd h1 (not_le.mpr hmax)
  · refine ⟨by norm_num, le_refl 1, ?_, fun _ _ => rfl, ?_⟩
    · intro hmax
      exact absurd hmax h1
    · intro _ hmin
      exact absurd h2 (not_le.mpr hmin)
  · have hmax : 0 < listMax (data.map (fun d => d.sentiment)) := not_le.mp h1
    have hmin : listMin (data.map (fun d => d.sentiment)) < 0 := not_le.mp h2
    have hden : 0 < listMax (data.map (fun d => d.sentiment)) -
        listMin (data.map (fun d => d.sentiment)) := by linarith
    have hlt : listMax (data.map (fun d => d.sentiment)) <
        listMax (data.map (fun d => d.sentiment)) -
          listMin (data.map (fun d => d.sentiment)) := by linarith
    have hq0 : 0 < listMax (data.map (fun d => d.sentiment)) /
        (listMax (data.map (fun d => d.sentiment)) -
          listMin (data.map (fun d => d.sentiment))) := div_pos hmax hden
    have hq1 : listMax (data.map (fun d => d.sentiment)) /
        (listMax (data.map (fun d => d.sentiment)) -
          listMin (data.map (fun d => d.sentiment))) < 1 :=
      (div_lt_one hden).mpr hlt
    refine ⟨le_of_lt hq0, le_of_lt hq1, ?_, ?_, ?_⟩
    · intro hc
      exact absurd hc h1
    · intro _ hc
      exact absurd hc h2
    · intro _ _
      exact ⟨hden, rfl, hq0, hq1⟩

/-- C10 at a concrete mixed-sign timeline. -/
theorem c10_gradient_offset_witness :
    0 ≤ gradientOffset
        [{ position := 0, sentiment := 1/2 },
          { position := 1, sentiment := -(1/2) }] ∧
    gradientOffset
        [{ position := 0, sentiment := 1/2 },
          { position := 1, sentiment := -(1/2) }] ≤ 1 := by
  have h := c10_gradient_offset_range
    [{ position := 0, sentiment := 1/2 },
      { position := 1, sentiment := -(1/2) }] (by simp)
  exact ⟨h.1, h.2.1⟩
